import Mathlib

/-!
# Flintrock EC2 module — shallow embedding and verification

This file embeds the cluster-lifecycle logic of `flintrock/ec2.py` in Lean 4
and proves properties of the embedded definitions.

Modelling conventions:
* EC2 instances are records carrying the fields the code reads: id, power
  state, public IP address, public DNS name, and the `flintrock-role` tag.
* The provider-reported power states form a closed inductive type
  (`InstanceState`), listing exactly the states EC2 reports for an instance.
  The string `'inconsistent'` that `EC2Cluster.state` can return is not a
  provider state, so the cluster state is a separate type `ClusterState`.
* Remote calls that mutate provider state are recorded as `Action` values in
  an execution trace; read-only lookups are supplied by environment functions
  (`Nat → List Nat → List EC2Instance` for batched instance queries, etc.).
* The unbounded polling loop of `wait_for_state` is modelled with explicit
  fuel: `none` means the loop was still running when the fuel ran out, so a
  `some` result is exactly "the call returned".
-/

namespace Flintrock

/-- The power states EC2 reports for a single instance
(`instance.state` in boto). -/
inductive InstanceState where
  | pending
  | running
  | shuttingDown
  | terminated
  | stopping
  | stopped
  deriving DecidableEq, Repr

/-- A single EC2 instance, restricted to the fields `ec2.py` reads:
`id`, `state`, `ip_address`, `public_dns_name`, and the
`flintrock-role` tag. -/
structure EC2Instance where
  id : Nat
  state : InstanceState
  ipAddress : String
  publicDnsName : String
  /-- Value of `tags['flintrock-role']`: `"master"` or `"slave"`. -/
  flintrockRole : String
  deriving DecidableEq, Repr

/-- The value of `EC2Cluster.state`: either a concrete instance state shared
by every member, or the string `'inconsistent'`. -/
inductive ClusterState where
  | concrete (s : InstanceState)
  | inconsistent
  deriving DecidableEq, Repr

/-- Embeds `EC2Cluster`: the fields of the Python class that the embedded methods
read or write. `master_ip`/`master_host`/`slave_ips`/`slave_hosts` are
`Option`s because `launch` constructs the cluster with them set to `None`. -/
structure EC2Cluster where
  name : String
  region : String
  master_instance : EC2Instance
  slave_instances : List EC2Instance
  master_ip : Option String
  master_host : Option String
  slave_ips : Option (List String)
  slave_hosts : Option (List String)
  deriving DecidableEq, Repr

/-- Embeds `EC2Cluster.instances`: `[self.master_instance] + self.slave_instances`. -/
def EC2Cluster.instances (c : EC2Cluster) : List EC2Instance :=
  c.master_instance :: c.slave_instances

/-- Embeds `EC2Cluster.state`: build the set of distinct member states
(`set(instance.state for instance in self.instances)`, modelled as `dedup`
of the state list); if it is a singleton return its element, else return
`'inconsistent'`. -/
def EC2Cluster.state (c : EC2Cluster) : ClusterState :=
  let instance_states := (c.instances.map EC2Instance.state).dedup
  match instance_states with
  | [s] => ClusterState.concrete s
  | _ => ClusterState.inconsistent

/- Helper lemmas about `dedup` of a uniform list. -/

lemma dedup_cons_all_eq {α : Type} [DecidableEq α] (a : α) :
    ∀ l : List α, (∀ x ∈ l, x = a) → (a :: l).dedup = [a] := by
  intro l
  induction l with
  | nil => intro _; simp
  | cons x xs ih =>
    intro h
    have hx : x = a := h x (by simp)
    subst hx
    have hxs : ∀ y ∈ xs, y = x := fun y hy => h y (by simp [hy])
    rw [List.dedup_cons_of_mem (show x ∈ x :: xs by simp)]
    exact ih hxs

/-- Embeds `_get_cluster_master_slaves`: filter the instance list by role tag.
The Python code takes `[0]` of the master filter result; on an empty result
that raises an untyped `IndexError`, modelled here as `none`. -/
def _get_cluster_master_slaves (instances : List EC2Instance) :
    Option (EC2Instance × List EC2Instance) :=
  let masters := instances.filter (fun x => decide (x.flintrockRole = "master"))
  let slave_instances := instances.filter (fun x => decide (x.flintrockRole = "slave"))
  match masters with
  | [] => none
  | master_instance :: _ => some (master_instance, slave_instances)

/-- Embeds `_compose_cluster`: split a partition of raw instances into master and
slaves and build the `EC2Cluster` record, deriving the address fields from
the chosen instances. `none` models the untyped `IndexError` escaping from
`_get_cluster_master_slaves` when the partition has no master. -/
def _compose_cluster (name region : String) (instances : List EC2Instance) :
    Option EC2Cluster :=
  match _get_cluster_master_slaves instances with
  | none => none
  | some (master_instance, slave_instances) =>
    some
      { name := name
        region := region
        master_instance := master_instance
        slave_instances := slave_instances
        master_ip := some master_instance.ipAddress
        master_host := some master_instance.publicDnsName
        slave_ips := some (slave_instances.map EC2Instance.ipAddress)
        slave_hosts := some (slave_instances.map EC2Instance.publicDnsName) }

/-- A batched read-only instance query: `connection.get_only_instances`,
supplied as an environment function from (poll round, queried ids) to the
refreshed instance records. -/
def PollEnv : Type := Nat → List Nat → List EC2Instance

/-- Embeds `EC2Cluster.wait_for_state`, with explicit fuel standing in for the
unbounded `while` loop. Each iteration of the Python loop re-queries all
member instances in one batched call, reassigns
`(master_instance, slave_instances)` via `_get_cluster_master_slaves`,
refreshes `master_ip`/`master_host`/`slave_ips`/`slave_hosts` from the
refreshed instances, and sleeps 3 seconds.

Returns `some (cluster, sleeps)` when the loop condition
`any(i.state != state for i in self.instances)` becomes false within `fuel`
iterations, where `sleeps` is the list of sleep durations performed;
`none` models the call not having returned yet (or the `IndexError` from a
master-less poll result propagating out). -/
def waitForState (env : PollEnv) :
    Nat → Nat → EC2Cluster → InstanceState → Option (EC2Cluster × List Nat)
  | 0, _, c, target =>
    if c.instances.all (fun i => decide (i.state = target)) then some (c, [])
    else none
  | fuel + 1, round, c, target =>
    if c.instances.all (fun i => decide (i.state = target)) then some (c, [])
    else
      match _get_cluster_master_slaves
          (env round (c.instances.map EC2Instance.id)) with
      | none => none
      | some (master_instance, slave_instances) =>
        let c' : EC2Cluster :=
          { c with
            master_instance := master_instance
            slave_instances := slave_instances
            master_ip := some master_instance.ipAddress
            master_host := some master_instance.publicDnsName
            slave_ips := some (slave_instances.map EC2Instance.ipAddress)
            slave_hosts := some (slave_instances.map EC2Instance.publicDnsName) }
        match waitForState env fuel (round + 1) c' target with
        | none => none
        | some (c2, sleeps) => some (c2, 3 :: sleeps)

/-- The typed errors of `flintrock/exceptions.py` that `ec2.py` raises,
plus `interrupt` for `KeyboardInterrupt` and `providerError` for
`boto.exception.EC2ResponseError` pass-throughs (carrying the error code). -/
inductive FlintrockError where
  | clusterNotFound (msg : String)
  | clusterAlreadyExists (msg : String)
  | clusterInvalidState (attempted_command : String) (state : ClusterState)
  | nothingToDo (msg : String)
  | interrupt
  | providerError (code : String)
  deriving DecidableEq, Repr

/-- Remote calls recorded in an execution trace. Mutating provider calls are
tagged by `Action.isProviderMutation`; reads, sleeps and local work carry no
provider-side effect. -/
inductive Action where
  /-- Embeds `connection.modify_instance_attribute(instance_id, 'groupSet', groups)`:
  reset one instance's security-group membership. -/
  | modifyInstanceGroups (instanceId : Nat) (groups : List String)
  /-- Embeds `connection.delete_security_group(name=...)`. -/
  | deleteSecurityGroup (name : String)
  /-- Embeds `connection.terminate_instances(instance_ids=...)`. -/
  | terminateInstances (ids : List Nat)
  /-- Embeds `connection.start_instances(instance_ids=...)`. -/
  | startInstances (ids : List Nat)
  /-- Embeds `connection.stop_instances(instance_ids=...)`. -/
  | stopInstances (ids : List Nat)
  /-- Embeds `connection.cancel_spot_instance_requests(request_ids=...)`. -/
  | cancelSpotRequests (requestIds : List Nat)
  /-- Embeds `connection.get_all_spot_instance_requests(request_ids=...)` (read). -/
  | getAllSpotRequests (requestIds : List Nat)
  /-- Embeds `connection.get_only_instances(instance_ids=...)` (read). -/
  | getOnlyInstances (ids : List Nat)
  /-- Embeds `click.confirm(...)` prompt shown to the operator, recording the
  prompt's default answer. -/
  | confirm (default : Bool)
  /-- Embeds `time.sleep(seconds)`. -/
  | sleep (seconds : Nat)
  /-- Embeds `super().destroy()` — `FlintrockCluster.destroy`, outside `ec2.py`. -/
  | superDestroy
  /-- Embeds `super().start(...)` — `FlintrockCluster.start`, outside `ec2.py`. -/
  | superStart
  /-- Embeds `super().stop()` — `FlintrockCluster.stop`, outside `ec2.py`. -/
  | superStop
  /-- Blocking `wait_for_state(target)` call (only reads and sleeps). -/
  | waitFor (target : InstanceState)
  deriving DecidableEq, Repr

/-- Which trace actions are provider mutations (create, modify, delete,
start, stop, terminate, cancel). Reads, sleeps, prompts and the delegated
`super()` calls (which touch no provider resource) are not. -/
def Action.isProviderMutation : Action → Bool
  | .modifyInstanceGroups _ _ => true
  | .deleteSecurityGroup _ => true
  | .terminateInstances _ => true
  | .startInstances _ => true
  | .stopInstances _ => true
  | .cancelSpotRequests _ => true
  | _ => false

/-- Embeds `EC2Cluster.destroy` as a trace of remote calls, in program order:
`destroy_check`/`super().destroy()` (no provider calls), then one
`modify_instance_attribute` per member instance resetting its group set to
the base `flintrock` group, then deletion of the per-cluster group
`flintrock-<name>`, then one batched `terminate_instances`. -/
def EC2Cluster.destroy (c : EC2Cluster) : List Action :=
  Action.superDestroy ::
    (c.instances.map
      (fun i => Action.modifyInstanceGroups i.id ["flintrock"])) ++
    [Action.deleteSecurityGroup ("flintrock-" ++ c.name),
     Action.terminateInstances (c.instances.map EC2Instance.id)]

/-- Embeds `EC2Cluster.start_check`. -/
def EC2Cluster.start_check (c : EC2Cluster) : Except FlintrockError Unit :=
  if c.state = ClusterState.concrete InstanceState.running then
    Except.error (FlintrockError.nothingToDo "Cluster is already running.")
  else if c.state ≠ ClusterState.concrete InstanceState.stopped then
    Except.error (FlintrockError.clusterInvalidState "start" c.state)
  else Except.ok ()

/-- Embeds `EC2Cluster.stop_check`. -/
def EC2Cluster.stop_check (c : EC2Cluster) : Except FlintrockError Unit :=
  if c.state = ClusterState.concrete InstanceState.stopped then
    Except.error (FlintrockError.nothingToDo "Cluster is already stopped.")
  else if c.state ≠ ClusterState.concrete InstanceState.running then
    Except.error (FlintrockError.clusterInvalidState "stop" c.state)
  else Except.ok ()

/-- Embeds `EC2Cluster.start`: run `start_check` first; on failure return the error
with an empty trace (nothing was issued). Otherwise issue the batched
`start_instances` call, then `wait_for_state('running')`, then delegate to
`super().start(...)`. `none` in the second component models the wait still
polling when the fuel runs out. -/
def EC2Cluster.start (env : PollEnv) (fuel : Nat) (c : EC2Cluster) :
    List Action × Except FlintrockError (Option EC2Cluster) :=
  match c.start_check with
  | Except.error e => ([], Except.error e)
  | Except.ok _ =>
    let acts := [Action.startInstances (c.instances.map EC2Instance.id)]
    match waitForState env fuel 0 c InstanceState.running with
    | none => (acts ++ [Action.waitFor InstanceState.running], Except.ok none)
    | some (c', sleeps) =>
      (acts ++ sleeps.map Action.sleep ++ [Action.superStart],
       Except.ok (some c'))

/-- Embeds `EC2Cluster.stop`: run `stop_check` first; on failure return the error
with an empty trace. Otherwise delegate to `super().stop()`, issue the
batched `stop_instances` call, then `wait_for_state('stopped')`. -/
def EC2Cluster.stop (env : PollEnv) (fuel : Nat) (c : EC2Cluster) :
    List Action × Except FlintrockError (Option EC2Cluster) :=
  match c.stop_check with
  | Except.error e => ([], Except.error e)
  | Except.ok _ =>
    let acts := [Action.superStop,
                 Action.stopInstances (c.instances.map EC2Instance.id)]
    match waitForState env fuel 0 c InstanceState.stopped with
    | none => (acts ++ [Action.waitFor InstanceState.stopped], Except.ok none)
    | some (c', sleeps) =>
      (acts ++ sleeps.map Action.sleep, Except.ok (some c'))

/-- Embeds the `SecurityGroupRule` namedtuple. -/
structure SecurityGroupRule where
  ip_protocol : String
  from_port : Int
  to_port : Int
  /-- Source group reference, by group name (`src_group=cluster_group`). -/
  src_group : Option String
  cidr_ip : Option String
  deriving DecidableEq, Repr

/-- A provider-side security group: its name and its current ingress rule
set (a list with set semantics: `authorize` refuses duplicates). -/
structure SecurityGroup where
  name : String
  rules : List SecurityGroupRule
  deriving DecidableEq, Repr

/-- The provider-side security-group state of one region. -/
structure EC2GroupsState where
  groups : List SecurityGroup
  deriving DecidableEq, Repr

/-- Look up a security group by name (`get_all_security_groups` filter). -/
def EC2GroupsState.find (st : EC2GroupsState) (name : String) :
    Option SecurityGroup :=
  st.groups.find? (fun g => decide (g.name = name))

/-- Embeds `connection.create_security_group`: adds an empty-ruled group. -/
def EC2GroupsState.createSecurityGroup (st : EC2GroupsState) (name : String) :
    EC2GroupsState :=
  { groups := st.groups ++ [{ name := name, rules := [] }] }

/-- Fault injection for `authorize` calls: for a (group name, rule) pair,
`some code` makes the provider answer with `EC2ResponseError` carrying
`error_code = code`, `none` lets the call proceed normally. Duplicate
detection is always in effect: authorizing a rule already present fails
with `InvalidPermission.Duplicate`. -/
def AuthorizeFault : Type := String → SecurityGroupRule → Option String

/-- No injected provider faults. -/
def noFault : AuthorizeFault := fun _ _ => none

/-- Embeds one `group.authorize(**rule._asdict())` call against provider
state: an injected fault answers with its error code; a rule already in the
group's rule set answers `InvalidPermission.Duplicate`; otherwise the rule
is added. -/
def EC2GroupsState.authorize (st : EC2GroupsState) (fault : AuthorizeFault)
    (gname : String) (r : SecurityGroupRule) : Except String EC2GroupsState :=
  match fault gname r with
  | some code => Except.error code
  | none =>
    match st.find gname with
    | none => Except.error "InvalidGroup.NotFound"
    | some g =>
      if r ∈ g.rules then Except.error "InvalidPermission.Duplicate"
      else
        Except.ok
          { groups := st.groups.map
              (fun g' => if g'.name = gname then
                { g' with rules := g'.rules ++ [r] } else g') }

/-- Embeds the `for rule in rules: try: authorize ... except EC2ResponseError`
loops of `get_or_create_ec2_security_groups`: a
`InvalidPermission.Duplicate` response is swallowed and the loop continues;
any other error code aborts the loop and propagates. -/
def authorizeRules (fault : AuthorizeFault) (gname : String) :
    EC2GroupsState → List SecurityGroupRule → Except String EC2GroupsState
  | st, [] => Except.ok st
  | st, r :: rs =>
    match st.authorize fault gname r with
    | Except.ok st' => authorizeRules fault gname st' rs
    | Except.error code =>
      if code = "InvalidPermission.Duplicate" then
        authorizeRules fault gname st rs
      else Except.error code

/-- The `client_rules` list: SSH, HDFS and Spark ports opened to the
operator's current public address. -/
def client_rules (flintrock_client_cidr : String) : List SecurityGroupRule :=
  [{ ip_protocol := "tcp", from_port := 22, to_port := 22,
     cidr_ip := some flintrock_client_cidr, src_group := none },
   { ip_protocol := "tcp", from_port := 50070, to_port := 50070,
     cidr_ip := some flintrock_client_cidr, src_group := none },
   { ip_protocol := "tcp", from_port := 8080, to_port := 8081,
     cidr_ip := some flintrock_client_cidr, src_group := none },
   { ip_protocol := "tcp", from_port := 4040, to_port := 4040,
     cidr_ip := some flintrock_client_cidr, src_group := none }]

/-- The `cluster_rules` list: unrestricted ICMP, TCP and UDP sourced from
the cluster group itself. -/
def cluster_rules (cluster_group_name : String) : List SecurityGroupRule :=
  [{ ip_protocol := "icmp", from_port := -1, to_port := -1,
     src_group := some cluster_group_name, cidr_ip := none },
   { ip_protocol := "tcp", from_port := 0, to_port := 65535,
     src_group := some cluster_group_name, cidr_ip := none },
   { ip_protocol := "udp", from_port := 0, to_port := 65535,
     src_group := some cluster_group_name, cidr_ip := none }]

/-- Embeds `get_or_create_ec2_security_groups`: look up the base `flintrock`
group and the per-cluster `flintrock-<name>` group, create whichever is
missing, authorize the client rules on the base group and the
self-referential cluster rules on the cluster group, swallowing
duplicate-rule responses and propagating every other provider error.
`flintrock_client_cidr` is the operator address discovered via the external
"what is my IP" lookup. Returns the new provider state and the two group
names. -/
def get_or_create_ec2_security_groups (fault : AuthorizeFault)
    (flintrock_client_cidr : String) (cluster_name : String)
    (st : EC2GroupsState) : Except String (EC2GroupsState × String × String) :=
  let flintrock_group_name := "flintrock"
  let cluster_group_name := "flintrock-" ++ cluster_name
  let st1 :=
    if (st.find flintrock_group_name).isSome then st
    else st.createSecurityGroup flintrock_group_name
  match authorizeRules fault flintrock_group_name st1
      (client_rules flintrock_client_cidr) with
  | Except.error code => Except.error code
  | Except.ok st2 =>
    let st3 :=
      if (st2.find cluster_group_name).isSome then st2
      else st2.createSecurityGroup cluster_group_name
    match authorizeRules fault cluster_group_name st3
        (cluster_rules cluster_group_name) with
    | Except.error code => Except.error code
    | Except.ok st4 =>
      Except.ok (st4, flintrock_group_name, cluster_group_name)

/-- A spot instance request as read by `launch`: its id, its state
(`'active'` once granted), and the id of the instance the grant produced,
if any. -/
structure SpotRequest where
  id : Nat
  state : String
  instance_id : Option Nat
  deriving DecidableEq, Repr

/-- Environment for one `launch` call: the provider-dependent outcomes of
its read calls and of the two phases preceding the `except` handler. -/
structure LaunchEnv where
  /-- Whether `get_cluster(cluster_name, region)` finds an existing
  cluster (it raises `ClusterNotFound` exactly when this is `false`). -/
  clusterExists : Bool
  /-- Outcome of the phase before the rollback-protected block:
  `get_or_create_ec2_security_groups` and `get_ec2_block_device_map`.
  Failures here are not rolled back (no instances exist yet). -/
  preludeResult : Except (List Action × FlintrockError) (List Action)
  /-- Outcome of the rollback-protected acquisition block (spot request or
  on-demand run, the grant-polling loop, tagging, wait-for-running, and
  provisioning). On success: the trace it emitted and the launched cluster.
  On failure: the trace emitted before the failure, the triggering error,
  and the values of the `spot_requests` and `cluster_instances` locals at
  the moment the exception was raised (both start out as `[]`). -/
  body : Except
      (List Action × FlintrockError × List SpotRequest × List EC2Instance)
      (List Action × EC2Cluster)
  /-- Result of the handler's `get_all_spot_instance_requests` re-resolution
  call for the given request ids. -/
  spotRefresh : List Nat → List SpotRequest
  /-- Result of the handler's `get_only_instances` call for the given
  instance ids. -/
  instLookup : List Nat → List EC2Instance
  /-- The operator's answer to the `click.confirm` prompt (pressing enter
  gives the prompt's default, which is yes). -/
  confirmAnswer : Bool

/-- Embeds the `except (Exception, KeyboardInterrupt)` handler of `launch`
(the rollback): if any spot requests were made, cancel them all by id,
re-query them to learn which bids produced instances, and when any did,
re-resolve `cluster_instances` from those instance ids; then, if any
instances exist, terminate them — after a `click.confirm` prompt whose
default answer is yes unless `assume_yes` suppresses the prompt. Returns
the handler's action trace; the caller re-raises the original error. -/
def launchExceptHandler (spotRefresh : List Nat → List SpotRequest)
    (instLookup : List Nat → List EC2Instance)
    (spot_requests : List SpotRequest)
    (cluster_instances : List EC2Instance)
    (assume_yes confirmAnswer : Bool) : List Action :=
  let spotStep : List Action × List EC2Instance :=
    if spot_requests.isEmpty then ([], cluster_instances)
    else
      let request_ids := spot_requests.map SpotRequest.id
      let refreshed := spotRefresh request_ids
      let instance_ids := refreshed.filterMap SpotRequest.instance_id
      if instance_ids.isEmpty then
        ([Action.cancelSpotRequests request_ids,
          Action.getAllSpotRequests request_ids],
         cluster_instances)
      else
        ([Action.cancelSpotRequests request_ids,
          Action.getAllSpotRequests request_ids,
          Action.getOnlyInstances instance_ids],
         instLookup instance_ids)
  let terminateStep : List Action :=
    if spotStep.2.isEmpty then []
    else
      (if assume_yes then [] else [Action.confirm true]) ++
        (if assume_yes || confirmAnswer then
          [Action.terminateInstances (spotStep.2.map EC2Instance.id)]
         else [])
  spotStep.1 ++ terminateStep

/-- The value of the handler's `cluster_instances` local after the
spot-request step: the instances created by this call, as re-resolved from
the provider — when spot requests exist and the re-queried bids report
granted instance ids, the result of looking those ids up; otherwise the
`cluster_instances` the failure left behind. -/
def rollbackResolvedInstances (spotRefresh : List Nat → List SpotRequest)
    (instLookup : List Nat → List EC2Instance)
    (spot_requests : List SpotRequest)
    (cluster_instances : List EC2Instance) : List EC2Instance :=
  if spot_requests.isEmpty then cluster_instances
  else
    let instance_ids := (spotRefresh (spot_requests.map SpotRequest.id)).filterMap
      SpotRequest.instance_id
    if instance_ids.isEmpty then cluster_instances
    else instLookup instance_ids

/-- Embeds `launch`: first `get_cluster` — if the cluster name already
exists in the region, raise `ClusterAlreadyExists` before any other call;
then the security-group/block-device phase; then the rollback-protected
acquisition block, whose failure runs `launchExceptHandler` and re-raises
the original error. Returns the full action trace and the outcome. -/
def launch (env : LaunchEnv) (cluster_name region : String)
    (assume_yes : Bool) : List Action × Except FlintrockError EC2Cluster :=
  if env.clusterExists then
    ([],
     Except.error (FlintrockError.clusterAlreadyExists
       ("Cluster " ++ cluster_name ++ " already exists in region " ++
        region ++ ".")))
  else
    match env.preludeResult with
    | Except.error (acts, e) => (acts, Except.error e)
    | Except.ok pacts =>
      match env.body with
      | Except.ok (bacts, cluster) => (pacts ++ bacts, Except.ok cluster)
      | Except.error (bacts, e, spot_requests, cluster_instances) =>
        let racts := launchExceptHandler env.spotRefresh env.instLookup
          spot_requests cluster_instances assume_yes env.confirmAnswer
        (pacts ++ bacts ++ racts, Except.error e)

/-! ## Lemmas about `EC2Cluster.state` -/

lemma state_of_uniform (c : EC2Cluster)
    (h : ∀ i ∈ c.instances, i.state = c.master_instance.state) :
    c.state = ClusterState.concrete c.master_instance.state := by
  have hmap : c.instances.map EC2Instance.state =
      c.master_instance.state :: c.slave_instances.map EC2Instance.state := by
    simp [EC2Cluster.instances]
  have hded : (c.instances.map EC2Instance.state).dedup =
      [c.master_instance.state] := by
    rw [hmap]
    apply dedup_cons_all_eq
    intro x hx
    rcases List.mem_map.mp hx with ⟨i, hi, rfl⟩
    exact h i (by simp [EC2Cluster.instances, hi])
  simp [EC2Cluster.state, hded]

lemma state_of_nonuniform (c : EC2Cluster) (i j : EC2Instance)
    (hi : i ∈ c.instances) (hj : j ∈ c.instances)
    (hij : i.state ≠ j.state) :
    c.state = ClusterState.inconsistent := by
  rcases hd : (c.instances.map EC2Instance.state).dedup with _ | ⟨s, rest⟩
  · simp [EC2Cluster.state, hd]
  · rcases rest with _ | ⟨t, rest'⟩
    · exfalso
      have his : i.state = s := by
        have hmem : i.state ∈ (c.instances.map EC2Instance.state).dedup := by
          rw [List.mem_dedup]
          exact List.mem_map.mpr ⟨i, hi, rfl⟩
        rw [hd] at hmem
        simpa using hmem
      have hjs : j.state = s := by
        have hmem : j.state ∈ (c.instances.map EC2Instance.state).dedup := by
          rw [List.mem_dedup]
          exact List.mem_map.mpr ⟨j, hj, rfl⟩
        rw [hd] at hmem
        simpa using hmem
      exact hij (his.trans hjs.symm)
    · simp [EC2Cluster.state, hd]

/-- C3: for every cluster whose member nodes report a non-uniform power
state, `state` (the `current_state` query) returns `inconsistent` and never
a concrete state; for every cluster whose nodes all agree, it returns the
shared concrete state and not `inconsistent`. -/
theorem current_state_uniformity (c : EC2Cluster) :
    ((∃ i ∈ c.instances, ∃ j ∈ c.instances, i.state ≠ j.state) →
      c.state = ClusterState.inconsistent) ∧
    ((∀ i ∈ c.instances, ∀ j ∈ c.instances, i.state = j.state) →
      c.state = ClusterState.concrete c.master_instance.state ∧
      c.state ≠ ClusterState.inconsistent) := by
  constructor
  · rintro ⟨i, hi, j, hj, hij⟩
    exact state_of_nonuniform c i j hi hj hij
  · intro h
    have hmaster : c.master_instance ∈ c.instances := by
      simp [EC2Cluster.instances]
    have hu : c.state = ClusterState.concrete c.master_instance.state :=
      state_of_uniform c (fun i hi => h i hi c.master_instance hmaster)
    exact ⟨hu, by rw [hu]; simp⟩

/-- Witness for C3 at concrete clusters: a two-node cluster whose nodes
report `running` and `stopped` is `inconsistent`; a two-node all-`running`
cluster reports `running`. -/
theorem current_state_uniformity_witness :
    (EC2Cluster.state
      { name := "a", region := "r",
        master_instance :=
          { id := 1, state := InstanceState.running, ipAddress := "ip1",
            publicDnsName := "h1", flintrockRole := "master" },
        slave_instances :=
          [{ id := 2, state := InstanceState.stopped, ipAddress := "ip2",
             publicDnsName := "h2", flintrockRole := "slave" }],
        master_ip := none, master_host := none,
        slave_ips := none, slave_hosts := none } =
      ClusterState.inconsistent) ∧
    (EC2Cluster.state
      { name := "a", region := "r",
        master_instance :=
          { id := 1, state := InstanceState.running, ipAddress := "ip1",
            publicDnsName := "h1", flintrockRole := "master" },
        slave_instances :=
          [{ id := 2, state := InstanceState.running, ipAddress := "ip2",
             publicDnsName := "h2", flintrockRole := "slave" }],
        master_ip := none, master_host := none,
        slave_ips := none, slave_hosts := none } =
      ClusterState.concrete InstanceState.running) := by
  constructor
  · exact (current_state_uniformity _).1
      ⟨{ id := 1, state := InstanceState.running, ipAddress := "ip1",
         publicDnsName := "h1", flintrockRole := "master" },
       by simp [EC2Cluster.instances],
       { id := 2, state := InstanceState.stopped, ipAddress := "ip2",
         publicDnsName := "h2", flintrockRole := "slave" },
       by simp [EC2Cluster.instances],
       by decide⟩
  · exact ((current_state_uniformity _).2 (by decide)).1

/-! ## Lemmas about `waitForState` -/

/-- Scaffolding for concrete examples: an instance record. -/
def mkInstance (id : Nat) (s : InstanceState) (role ip host : String) :
    EC2Instance :=
  { id := id, state := s, ipAddress := ip, publicDnsName := host,
    flintrockRole := role }

/-- Scaffolding for concrete examples: a cluster with unset address fields,
as `launch` builds it. -/
def mkCluster (m : EC2Instance) (slaves : List EC2Instance) : EC2Cluster :=
  { name := "test", region := "us-east-1", master_instance := m,
    slave_instances := slaves, master_ip := none, master_host := none,
    slave_ips := none, slave_hosts := none }

lemma waitForState_sound (env : PollEnv) :
    ∀ fuel round c s c' sleeps,
      waitForState env fuel round c s = some (c', sleeps) →
      (∀ i ∈ c'.instances, i.state = s) ∧ ∀ d ∈ sleeps, d = 3 := by
  intro fuel
  induction fuel with
  | zero =>
    intro round c s c' sleeps h
    unfold waitForState at h
    by_cases hall : (c.instances.all (fun i => decide (i.state = s))) = true
    · rw [if_pos hall] at h
      cases h
      refine ⟨?_, by simp⟩
      intro i hi
      exact of_decide_eq_true (List.all_eq_true.mp hall i hi)
    · rw [if_neg hall] at h
      cases h
  | succ fuel ih =>
    intro round c s c' sleeps h
    unfold waitForState at h
    by_cases hall : (c.instances.all (fun i => decide (i.state = s))) = true
    · rw [if_pos hall] at h
      cases h
      refine ⟨?_, by simp⟩
      intro i hi
      exact of_decide_eq_true (List.all_eq_true.mp hall i hi)
    · rw [if_neg hall] at h
      cases hcomp : _get_cluster_master_slaves
          (env round (c.instances.map EC2Instance.id)) with
      | none => rw [hcomp] at h; cases h
      | some p =>
        rw [hcomp] at h
        obtain ⟨m, ss⟩ := p
        simp only at h
        cases hrec : waitForState env fuel (round + 1)
            { c with
              master_instance := m
              slave_instances := ss
              master_ip := some m.ipAddress
              master_host := some m.publicDnsName
              slave_ips := some (ss.map EC2Instance.ipAddress)
              slave_hosts := some (ss.map EC2Instance.publicDnsName) } s with
        | none => rw [hrec] at h; cases h
        | some q =>
          rw [hrec] at h
          obtain ⟨c2, sl⟩ := q
          simp only at h
          cases h
          obtain ⟨h1, h2⟩ := ih _ _ _ _ _ hrec
          refine ⟨h1, ?_⟩
          intro d hd
          rcases List.mem_cons.mp hd with rfl | hd'
          · rfl
          · exact h2 d hd'

lemma waitForState_none_of_never_converged (env : PollEnv)
    (s : InstanceState)
    (henv : ∀ r ids m ss,
      _get_cluster_master_slaves (env r ids) = some (m, ss) →
      ∃ i ∈ m :: ss, i.state ≠ s) :
    ∀ fuel round c, (∃ i ∈ c.instances, i.state ≠ s) →
      waitForState env fuel round c s = none := by
  intro fuel
  induction fuel with
  | zero =>
    rintro round c ⟨i, hi, his⟩
    unfold waitForState
    rw [if_neg (fun hall =>
      his (of_decide_eq_true (List.all_eq_true.mp hall i hi)))]
  | succ fuel ih =>
    rintro round c ⟨i, hi, his⟩
    unfold waitForState
    rw [if_neg (fun hall =>
      his (of_decide_eq_true (List.all_eq_true.mp hall i hi)))]
    cases hcomp : _get_cluster_master_slaves
        (env round (c.instances.map EC2Instance.id)) with
    | none => rfl
    | some p =>
      obtain ⟨m, ss⟩ := p
      simp only
      rw [ih (round + 1) _ ?_]
      obtain ⟨j, hj, hjs⟩ := henv _ _ _ _ hcomp
      exact ⟨j, by simpa [EC2Cluster.instances] using hj, hjs⟩

/-- C4: whenever `waitForState` returns (`some`), every member of the
returned cluster reports exactly the target state, and every sleep it
performed was the fixed 3-second interval; and whenever some member differs
from the target and the polled provider data never converges to the target,
the call does not return within any amount of fuel (no maximum retry count
or timeout — it blocks until convergence or external interruption). -/
theorem wait_for_state_returns_only_on_convergence (env : PollEnv)
    (fuel round : Nat) (c : EC2Cluster) (s : InstanceState) :
    (∀ c' sleeps, waitForState env fuel round c s = some (c', sleeps) →
      (∀ i ∈ c'.instances, i.state = s) ∧ ∀ d ∈ sleeps, d = 3) ∧
    ((∃ i ∈ c.instances, i.state ≠ s) →
      (∀ r ids m ss,
        _get_cluster_master_slaves (env r ids) = some (m, ss) →
        ∃ i ∈ m :: ss, i.state ≠ s) →
      waitForState env fuel round c s = none) := by
  constructor
  · intro c' sleeps h
    exact waitForState_sound env fuel round c s c' sleeps h
  · intro hne henv
    exact waitForState_none_of_never_converged env s henv fuel round c hne

/-- Witness for C4: a one-node cluster that starts `pending` and is reported
`running` by the next poll converges in one iteration (one 3-second sleep);
the same cluster against a provider that keeps reporting `pending` never
returns within 5 rounds of fuel. -/
theorem wait_for_state_returns_only_on_convergence_witness :
    ((∀ i ∈ ({ mkCluster (mkInstance 1 InstanceState.running "master" "ip" "h")
          [] with
        master_ip := some "ip", master_host := some "h",
        slave_ips := some [], slave_hosts := some [] } : EC2Cluster).instances,
      i.state = InstanceState.running) ∧
      ∀ d ∈ [3], d = 3) ∧
    waitForState (fun _ _ => [mkInstance 1 InstanceState.pending "master" "ip" "h"])
      5 0 (mkCluster (mkInstance 1 InstanceState.pending "master" "ip" "h") [])
      InstanceState.running = none := by
  constructor
  · exact (wait_for_state_returns_only_on_convergence
      (fun _ _ => [mkInstance 1 InstanceState.running "master" "ip" "h"])
      1 0 (mkCluster (mkInstance 1 InstanceState.pending "master" "ip" "h") [])
      InstanceState.running).1
      { mkCluster (mkInstance 1 InstanceState.running "master" "ip" "h")
          [] with
        master_ip := some "ip", master_host := some "h",
        slave_ips := some [], slave_hosts := some [] }
      [3] (by decide)
  · exact (wait_for_state_returns_only_on_convergence
      (fun _ _ => [mkInstance 1 InstanceState.pending "master" "ip" "h"])
      5 0 (mkCluster (mkInstance 1 InstanceState.pending "master" "ip" "h") [])
      InstanceState.running).2
      ⟨mkInstance 1 InstanceState.pending "master" "ip" "h",
       by simp [mkCluster, EC2Cluster.instances], by decide⟩
      (by
        intro r ids m ss h
        simp [_get_cluster_master_slaves, mkInstance] at h
        obtain ⟨rfl, rfl⟩ := h
        exact ⟨mkInstance 1 InstanceState.pending "master" "ip" "h",
          by simp [mkInstance], by decide⟩)

/-! ## Refreshing of addresses by `waitForState` (claim C9) -/

/-- The cluster's recorded addresses and hostnames agree with its current
member instance records (the values the latest batched query returned). -/
def addressesRefreshed (c : EC2Cluster) : Prop :=
  c.master_ip = some c.master_instance.ipAddress ∧
  c.master_host = some c.master_instance.publicDnsName ∧
  c.slave_ips = some (c.slave_instances.map EC2Instance.ipAddress) ∧
  c.slave_hosts = some (c.slave_instances.map EC2Instance.publicDnsName)

instance (c : EC2Cluster) : Decidable (addressesRefreshed c) := by
  unfold addressesRefreshed
  infer_instance

lemma waitForState_preserves_refreshed (env : PollEnv) (s : InstanceState) :
    ∀ fuel round c, addressesRefreshed c →
      ∀ c' sleeps, waitForState env fuel round c s = some (c', sleeps) →
        addressesRefreshed c' := by
  intro fuel
  induction fuel with
  | zero =>
    intro round c hc c' sleeps h
    unfold waitForState at h
    by_cases hall : (c.instances.all (fun i => decide (i.state = s))) = true
    · rw [if_pos hall] at h
      cases h
      exact hc
    · rw [if_neg hall] at h
      cases h
  | succ fuel ih =>
    intro round c hc c' sleeps h
    unfold waitForState at h
    by_cases hall : (c.instances.all (fun i => decide (i.state = s))) = true
    · rw [if_pos hall] at h
      cases h
      exact hc
    · rw [if_neg hall] at h
      cases hcomp : _get_cluster_master_slaves
          (env round (c.instances.map EC2Instance.id)) with
      | none => rw [hcomp] at h; cases h
      | some p =>
        rw [hcomp] at h
        obtain ⟨m, ss⟩ := p
        simp only at h
        cases hrec : waitForState env fuel (round + 1)
            { c with
              master_instance := m
              slave_instances := ss
              master_ip := some m.ipAddress
              master_host := some m.publicDnsName
              slave_ips := some (ss.map EC2Instance.ipAddress)
              slave_hosts := some (ss.map EC2Instance.publicDnsName) } s with
        | none => rw [hrec] at h; cases h
        | some q =>
          rw [hrec] at h
          obtain ⟨c2, sl⟩ := q
          simp only at h
          cases h
          exact ih (round + 1) _ (by simp [addressesRefreshed]) _ _ hrec

/-- C9, counterexample to the claim as stated: a cluster all of whose
members already report the target state when the wait begins returns
immediately, with its recorded master address left at its stale value
(`"stale"`) rather than refreshed to the instance's current address
(`"fresh"`). -/
theorem wait_for_state_no_refresh_when_already_converged :
    waitForState (fun _ _ => []) 5 0
      { mkCluster (mkInstance 1 InstanceState.running "master" "fresh" "hfresh")
          [] with master_ip := some "stale" }
      InstanceState.running =
      some
        ({ mkCluster
            (mkInstance 1 InstanceState.running "master" "fresh" "hfresh")
            [] with master_ip := some "stale" }, []) ∧
    ({ mkCluster (mkInstance 1 InstanceState.running "master" "fresh" "hfresh")
        [] with master_ip := some "stale" } : EC2Cluster).master_ip ≠
      some ({ mkCluster
          (mkInstance 1 InstanceState.running "master" "fresh" "hfresh")
          [] with master_ip := some "stale" } :
        EC2Cluster).master_instance.ipAddress := by
  constructor
  · decide
  · decide

/-- C9, amended: whenever `waitForState` returns after at least one polling
iteration — that is, when some member did not already report the target
state at entry — the returned cluster's recorded addresses and hostnames
are exactly those of its refreshed (latest-queried) instance records; when
every member already reports the target at entry, the call returns at once
with the cluster unchanged, performing no query and no refresh. -/
theorem wait_for_state_refreshes_addresses (env : PollEnv)
    (fuel round : Nat) (c : EC2Cluster) (s : InstanceState) :
    ((∃ i ∈ c.instances, i.state ≠ s) →
      ∀ c' sleeps, waitForState env fuel round c s = some (c', sleeps) →
        addressesRefreshed c') ∧
    ((∀ i ∈ c.instances, i.state = s) →
      waitForState env fuel round c s = some (c, [])) := by
  constructor
  · rintro ⟨i, hi, his⟩ c' sleeps h
    have hall : ¬((c.instances.all (fun i => decide (i.state = s))) = true) :=
      fun hall => his (of_decide_eq_true (List.all_eq_true.mp hall i hi))
    cases fuel with
    | zero =>
      unfold waitForState at h
      rw [if_neg hall] at h
      cases h
    | succ fuel =>
      unfold waitForState at h
      rw [if_neg hall] at h
      cases hcomp : _get_cluster_master_slaves
          (env round (c.instances.map EC2Instance.id)) with
      | none => rw [hcomp] at h; cases h
      | some p =>
        rw [hcomp] at h
        obtain ⟨m, ss⟩ := p
        simp only at h
        cases hrec : waitForState env fuel (round + 1)
            { c with
              master_instance := m
              slave_instances := ss
              master_ip := some m.ipAddress
              master_host := some m.publicDnsName
              slave_ips := some (ss.map EC2Instance.ipAddress)
              slave_hosts := some (ss.map EC2Instance.publicDnsName) } s with
        | none => rw [hrec] at h; cases h
        | some q =>
          rw [hrec] at h
          obtain ⟨c2, sl⟩ := q
          simp only at h
          cases h
          exact waitForState_preserves_refreshed env s fuel (round + 1) _
            (by simp [addressesRefreshed]) _ _ hrec
  · intro h
    have hall : (c.instances.all (fun i => decide (i.state = s))) = true :=
      List.all_eq_true.mpr (fun i hi => decide_eq_true (h i hi))
    cases fuel with
    | zero => unfold waitForState; rw [if_pos hall]
    | succ fuel => unfold waitForState; rw [if_pos hall]

/-- Witness for C9 (amended): the one-iteration convergence scenario ends
with refreshed addresses, and an already-`running` cluster is returned
unchanged. -/
theorem wait_for_state_refreshes_addresses_witness :
    addressesRefreshed
      { mkCluster (mkInstance 1 InstanceState.running "master" "ip" "h")
          [] with
        master_ip := some "ip", master_host := some "h",
        slave_ips := some [], slave_hosts := some [] } ∧
    waitForState (fun _ _ => []) 7 0
      (mkCluster (mkInstance 1 InstanceState.running "master" "ip" "h") [])
      InstanceState.running =
      some
        (mkCluster (mkInstance 1 InstanceState.running "master" "ip" "h") [],
         []) := by
  constructor
  · exact (wait_for_state_refreshes_addresses
      (fun _ _ => [mkInstance 1 InstanceState.running "master" "ip" "h"])
      1 0 (mkCluster (mkInstance 1 InstanceState.pending "master" "ip" "h") [])
      InstanceState.running).1
      ⟨mkInstance 1 InstanceState.pending "master" "ip" "h",
       by simp [mkCluster, EC2Cluster.instances], by decide⟩
      { mkCluster (mkInstance 1 InstanceState.running "master" "ip" "h")
          [] with
        master_ip := some "ip", master_host := some "h",
        slave_ips := some [], slave_hosts := some [] }
      [3] (by decide)
  · exact (wait_for_state_refreshes_addresses (fun _ _ => []) 7 0
      (mkCluster (mkInstance 1 InstanceState.running "master" "ip" "h") [])
      InstanceState.running).2
      (by
        intro i hi
        simp [mkCluster, EC2Cluster.instances] at hi
        subst hi
        rfl)

/-! ## Start/stop preconditions (claim C5) -/

/-- C5: `stop` on an already-stopped cluster raises `NothingToDo`, `stop` on
a cluster in any state other than `running` raises `ClusterInvalidState`,
and symmetrically `start` on an already-running cluster raises `NothingToDo`
and `start` on a cluster not currently `stopped` raises
`ClusterInvalidState` — in every case with an empty action trace, i.e. no
provider mutation issued. -/
theorem start_stop_preconditions (env : PollEnv) (fuel : Nat)
    (c : EC2Cluster) :
    (c.state = ClusterState.concrete InstanceState.stopped →
      c.stop env fuel =
        ([], Except.error
          (FlintrockError.nothingToDo "Cluster is already stopped."))) ∧
    (c.state ≠ ClusterState.concrete InstanceState.stopped →
      c.state ≠ ClusterState.concrete InstanceState.running →
      c.stop env fuel =
        ([], Except.error
          (FlintrockError.clusterInvalidState "stop" c.state))) ∧
    (c.state = ClusterState.concrete InstanceState.running →
      c.start env fuel =
        ([], Except.error
          (FlintrockError.nothingToDo "Cluster is already running."))) ∧
    (c.state ≠ ClusterState.concrete InstanceState.running →
      c.state ≠ ClusterState.concrete InstanceState.stopped →
      c.start env fuel =
        ([], Except.error
          (FlintrockError.clusterInvalidState "start" c.state))) := by
  refine ⟨?_, ?_, ?_, ?_⟩
  · intro h
    simp [EC2Cluster.stop, EC2Cluster.stop_check, h]
  · intro h1 h2
    simp [EC2Cluster.stop, EC2Cluster.stop_check, h1, h2]
  · intro h
    simp [EC2Cluster.start, EC2Cluster.start_check, h]
  · intro h1 h2
    simp [EC2Cluster.start, EC2Cluster.start_check, h1, h2]

/-- Witness for C5 at concrete clusters: a stopped cluster, an inconsistent
cluster (`running` master, `stopped` slave) and a running cluster. -/
theorem start_stop_preconditions_witness :
    ((mkCluster (mkInstance 1 InstanceState.stopped "master" "ip" "h")
        []).stop (fun _ _ => []) 0 =
      ([], Except.error
        (FlintrockError.nothingToDo "Cluster is already stopped."))) ∧
    ((mkCluster (mkInstance 1 InstanceState.running "master" "ip" "h")
        [mkInstance 2 InstanceState.stopped "slave" "ip2" "h2"]).stop
        (fun _ _ => []) 0 =
      ([], Except.error
        (FlintrockError.clusterInvalidState "stop"
          ClusterState.inconsistent))) ∧
    ((mkCluster (mkInstance 1 InstanceState.running "master" "ip" "h")
        []).start (fun _ _ => []) 0 =
      ([], Except.error
        (FlintrockError.nothingToDo "Cluster is already running."))) ∧
    ((mkCluster (mkInstance 1 InstanceState.running "master" "ip" "h")
        [mkInstance 2 InstanceState.stopped "slave" "ip2" "h2"]).start
        (fun _ _ => []) 0 =
      ([], Except.error
        (FlintrockError.clusterInvalidState "start"
          ClusterState.inconsistent))) := by
  refine ⟨?_, ?_, ?_, ?_⟩
  · exact (start_stop_preconditions (fun _ _ => []) 0
      (mkCluster (mkInstance 1 InstanceState.stopped "master" "ip" "h")
        [])).1 (by decide)
  · have h := (start_stop_preconditions (fun _ _ => []) 0
      (mkCluster (mkInstance 1 InstanceState.running "master" "ip" "h")
        [mkInstance 2 InstanceState.stopped "slave" "ip2" "h2"])).2.1
      (by decide) (by decide)
    simpa using h
  · exact (start_stop_preconditions (fun _ _ => []) 0
      (mkCluster (mkInstance 1 InstanceState.running "master" "ip" "h")
        [])).2.2.1 (by decide)
  · have h := (start_stop_preconditions (fun _ _ => []) 0
      (mkCluster (mkInstance 1 InstanceState.running "master" "ip" "h")
        [mkInstance 2 InstanceState.stopped "slave" "ip2" "h2"])).2.2.2
      (by decide) (by decide)
    simpa using h

/-! ## Teardown ordering (claim C2) -/

/-- C2: in every execution of `destroy`, every member instance's group
membership is reset to only the base `flintrock` group at a trace position
strictly before the deletion of the per-cluster group
`flintrock-<name>`, and the batched termination of all member instances
sits strictly after that deletion. -/
theorem destroy_detaches_then_deletes_then_terminates (c : EC2Cluster) :
    ∃ jd jt : Nat, jd < jt ∧
      c.destroy[jd]? =
        some (Action.deleteSecurityGroup ("flintrock-" ++ c.name)) ∧
      c.destroy[jt]? =
        some (Action.terminateInstances (c.instances.map EC2Instance.id)) ∧
      ∀ i ∈ c.instances, ∃ ji : Nat, ji < jd ∧
        c.destroy[ji]? =
          some (Action.modifyInstanceGroups i.id ["flintrock"]) := by
  have hform : c.destroy = Action.superDestroy ::
      ((c.instances.map
        (fun i => Action.modifyInstanceGroups i.id ["flintrock"])) ++
       [Action.deleteSecurityGroup ("flintrock-" ++ c.name),
        Action.terminateInstances (c.instances.map EC2Instance.id)]) := by
    simp [EC2Cluster.destroy]
  refine ⟨c.instances.length + 1, c.instances.length + 2, by omega,
    ?_, ?_, ?_⟩
  · rw [hform, List.getElem?_cons_succ,
      List.getElem?_append_right (by simp)]
    simp
  · rw [hform, List.getElem?_cons_succ,
      List.getElem?_append_right (by simp)]
    simp
  · intro i hi
    obtain ⟨idx, hidx, hgi⟩ := List.getElem_of_mem hi
    refine ⟨idx + 1, by omega, ?_⟩
    rw [hform, List.getElem?_cons_succ,
      List.getElem?_append_left (by simpa using hidx)]
    simp [List.getElem?_eq_getElem hidx, hgi]

/-- Witness for C2 at a concrete two-node cluster. -/
theorem destroy_ordering_witness :
    ∃ jd jt : Nat, jd < jt ∧
      (mkCluster (mkInstance 1 InstanceState.running "master" "ip" "h")
        [mkInstance 2 InstanceState.running "slave" "ip2" "h2"]).destroy[jd]? =
        some (Action.deleteSecurityGroup "flintrock-test") ∧
      (mkCluster (mkInstance 1 InstanceState.running "master" "ip" "h")
        [mkInstance 2 InstanceState.running "slave" "ip2" "h2"]).destroy[jt]? =
        some (Action.terminateInstances [1, 2]) ∧
      ∀ i ∈ (mkCluster (mkInstance 1 InstanceState.running "master" "ip" "h")
        [mkInstance 2 InstanceState.running "slave" "ip2" "h2"]).instances,
        ∃ ji : Nat, ji < jd ∧
          (mkCluster (mkInstance 1 InstanceState.running "master" "ip" "h")
            [mkInstance 2 InstanceState.running "slave" "ip2" "h2"]).destroy[ji]? =
            some (Action.modifyInstanceGroups i.id ["flintrock"]) := by
  have h := destroy_detaches_then_deletes_then_terminates
    (mkCluster (mkInstance 1 InstanceState.running "master" "ip" "h")
      [mkInstance 2 InstanceState.running "slave" "ip2" "h2"])
  simpa [mkCluster, mkInstance, EC2Cluster.instances] using h

/-! ## Launch fails fast on an existing name (claim C6) -/

/-- C6: `launch` on a cluster name that already exists in the region fails
with `ClusterAlreadyExists` and an empty action trace — no security-group
creation, no instance or spot-bid request is performed before failing. -/
theorem launch_fails_fast_on_existing_cluster (env : LaunchEnv)
    (cluster_name region : String) (assume_yes : Bool)
    (h : env.clusterExists = true) :
    launch env cluster_name region assume_yes =
      ([], Except.error (FlintrockError.clusterAlreadyExists
        ("Cluster " ++ cluster_name ++ " already exists in region " ++
         region ++ "."))) := by
  simp [launch, h]

/-- Witness for C6 at a concrete environment in which the name exists. -/
theorem launch_fails_fast_on_existing_cluster_witness :
    launch
      { clusterExists := true
        preludeResult := Except.ok []
        body := Except.ok
          ([], mkCluster (mkInstance 1 InstanceState.running "master" "ip" "h") [])
        spotRefresh := fun _ => []
        instLookup := fun _ => []
        confirmAnswer := true }
      "spark-cluster" "us-east-1" false =
      ([], Except.error (FlintrockError.clusterAlreadyExists
        "Cluster spark-cluster already exists in region us-east-1.")) := by
  exact launch_fails_fast_on_existing_cluster _ "spark-cluster" "us-east-1"
    false rfl

/-! ## Composition with no master (claim C8) -/

/-- C8: on a partition of tagged instances that contains no master-tagged
instance, `_get_cluster_master_slaves` takes `[0]` of an empty filter
result, which in Python raises an untyped `IndexError` (modelled as
`none`), and `_compose_cluster` propagates it; no typed `MalformedCluster`
error exists in the code (none is even imported from
`flintrock.exceptions`). Evaluated here at a concrete slave-only
partition. -/
theorem composition_untyped_error_on_no_master :
    _get_cluster_master_slaves
      [mkInstance 1 InstanceState.running "slave" "ip" "h",
       mkInstance 2 InstanceState.running "slave" "ip2" "h2"] = none ∧
    _compose_cluster "a" "us-east-1"
      [mkInstance 1 InstanceState.running "slave" "ip" "h",
       mkInstance 2 InstanceState.running "slave" "ip2" "h2"] = none := by
  constructor
  · decide
  · decide

/-! ## Composition with several masters (claim C10) -/

/-- C10: when the instance list carries more than one master-tagged
instance, composition silently selects the first master-tagged instance as
the cluster's master, the worker list is exactly the slave-tagged
instances, and every other master-tagged instance appears neither as
master nor in the worker list — so whole-cluster operations, which
enumerate `instances = master :: slaves`, omit it. -/
theorem compose_picks_first_master_and_drops_extras
    (name region : String) (instances : List EC2Instance)
    (m : EC2Instance) (rest : List EC2Instance)
    (hm : instances.filter (fun x => decide (x.flintrockRole = "master")) =
      m :: rest) :
    ∃ cl, _compose_cluster name region instances = some cl ∧
      cl.master_instance = m ∧
      cl.slave_instances =
        instances.filter (fun x => decide (x.flintrockRole = "slave")) ∧
      ∀ x ∈ rest, x ≠ m → x ∉ cl.instances := by
  have hsplit : _get_cluster_master_slaves instances =
      some (m, instances.filter (fun x => decide (x.flintrockRole = "slave"))) := by
    unfold _get_cluster_master_slaves
    rw [hm]
  have hcomp : _compose_cluster name region instances = some
      { name := name
        region := region
        master_instance := m
        slave_instances :=
          instances.filter (fun x => decide (x.flintrockRole = "slave"))
        master_ip := some m.ipAddress
        master_host := some m.publicDnsName
        slave_ips := some
          ((instances.filter (fun x => decide (x.flintrockRole = "slave"))).map
            EC2Instance.ipAddress)
        slave_hosts := some
          ((instances.filter (fun x => decide (x.flintrockRole = "slave"))).map
            EC2Instance.publicDnsName) } := by
    simp [_compose_cluster, hsplit]
  refine ⟨_, hcomp, rfl, rfl, ?_⟩
  intro x hx hxm hmem
  have hxrole : x.flintrockRole = "master" := by
    have hxf : x ∈ instances.filter
        (fun x => decide (x.flintrockRole = "master")) := by
      rw [hm]
      exact List.mem_cons_of_mem m hx
    exact of_decide_eq_true (List.mem_filter.mp hxf).2
  have hmem' : x = m ∨ x ∈ instances.filter
      (fun x => decide (x.flintrockRole = "slave")) := by
    simpa [EC2Cluster.instances] using hmem
  rcases hmem' with rfl | hslave
  · exact hxm rfl
  · have : x.flintrockRole = "slave" :=
      of_decide_eq_true (List.mem_filter.mp hslave).2
    rw [hxrole] at this
    exact absurd this (by decide)

/-- Witness for C10: a list with two master-tagged instances and one slave;
the second master-tagged instance is silently dropped. -/
theorem compose_picks_first_master_and_drops_extras_witness :
    ∃ cl, _compose_cluster "a" "us-east-1"
        [mkInstance 1 InstanceState.running "master" "ip1" "h1",
         mkInstance 2 InstanceState.running "master" "ip2" "h2",
         mkInstance 3 InstanceState.running "slave" "ip3" "h3"] = some cl ∧
      cl.master_instance =
        mkInstance 1 InstanceState.running "master" "ip1" "h1" ∧
      cl.slave_instances =
        ([mkInstance 1 InstanceState.running "master" "ip1" "h1",
          mkInstance 2 InstanceState.running "master" "ip2" "h2",
          mkInstance 3 InstanceState.running "slave" "ip3" "h3"].filter
          (fun x => decide (x.flintrockRole = "slave"))) ∧
      ∀ x ∈ [mkInstance 2 InstanceState.running "master" "ip2" "h2"],
        x ≠ mkInstance 1 InstanceState.running "master" "ip1" "h1" →
        x ∉ cl.instances := by
  exact compose_picks_first_master_and_drops_extras "a" "us-east-1"
    [mkInstance 1 InstanceState.running "master" "ip1" "h1",
     mkInstance 2 InstanceState.running "master" "ip2" "h2",
     mkInstance 3 InstanceState.running "slave" "ip3" "h3"]
    (mkInstance 1 InstanceState.running "master" "ip1" "h1")
    [mkInstance 2 InstanceState.running "master" "ip2" "h2"]
    (by decide)

/-! ## Security-group convergence (claim C7) -/

lemma find_map_update_self (groups : List SecurityGroup) (gname : String)
    (r : SecurityGroupRule) :
    (groups.map (fun g' => if g'.name = gname then
        { g' with rules := g'.rules ++ [r] } else g')).find?
      (fun g => decide (g.name = gname)) =
    (groups.find? (fun g => decide (g.name = gname))).map
      (fun g => { g with rules := g.rules ++ [r] }) := by
  induction groups with
  | nil => rfl
  | cons g gs ih =>
    simp only [List.map_cons]
    by_cases h : g.name = gname
    · rw [if_pos h, List.find?_cons_of_pos _ (by simpa using h),
        List.find?_cons_of_pos _ (by simpa using h)]
      rfl
    · rw [if_neg h, List.find?_cons_of_neg _ (by simpa using h),
        List.find?_cons_of_neg _ (by simpa using h)]
      exact ih

lemma find_map_update_other (groups : List SecurityGroup)
    (gname : String) (r : SecurityGroupRule) (n : String) (hn : n ≠ gname) :
    (groups.map (fun g' => if g'.name = gname then
        { g' with rules := g'.rules ++ [r] } else g')).find?
      (fun g => decide (g.name = n)) =
    groups.find? (fun g => decide (g.name = n)) := by
  induction groups with
  | nil => rfl
  | cons g gs ih =>
    simp only [List.map_cons]
    by_cases h : g.name = gname
    · have hgn : ¬(g.name = n) := by
        rw [h]
        exact fun e => hn e.symm
      rw [if_pos h, List.find?_cons_of_neg _ (by simpa using hgn),
        List.find?_cons_of_neg _ (by simpa using hgn)]
      exact ih
    · by_cases hgn : g.name = n
      · rw [if_neg h, List.find?_cons_of_pos _ (by simpa using hgn),
          List.find?_cons_of_pos _ (by simpa using hgn)]
      · rw [if_neg h, List.find?_cons_of_neg _ (by simpa using hgn),
          List.find?_cons_of_neg _ (by simpa using hgn)]
        exact ih

lemma find_createSecurityGroup_self (st : EC2GroupsState) (name : String)
    (h : st.find name = none) :
    (st.createSecurityGroup name).find name =
      some { name := name, rules := [] } := by
  unfold EC2GroupsState.find EC2GroupsState.createSecurityGroup
  unfold EC2GroupsState.find at h
  rw [List.find?_append, h]
  simp [List.find?]

lemma find_createSecurityGroup_other (st : EC2GroupsState)
    (name n : String) (hn : n ≠ name) :
    (st.createSecurityGroup name).find n = st.find n := by
  unfold EC2GroupsState.find EC2GroupsState.createSecurityGroup
  rw [List.find?_append]
  have hnone : List.find? (fun g => decide (g.name = n))
      ([{ name := name, rules := [] }] : List SecurityGroup) = none := by
    have : ¬(name = n) := fun e => hn e.symm
    simp [List.find?, this]
  rw [hnone, Option.or_none]

lemma authorize_noFault_ok (st : EC2GroupsState) (gname : String)
    (r : SecurityGroupRule) (g : SecurityGroup)
    (hfind : st.find gname = some g) (hr : r ∉ g.rules) :
    ∃ st', st.authorize noFault gname r = Except.ok st' ∧
      st'.find gname = some { g with rules := g.rules ++ [r] } ∧
      ∀ n, n ≠ gname → st'.find n = st.find n := by
  refine ⟨{ groups := st.groups.map (fun g' => if g'.name = gname then
      { g' with rules := g'.rules ++ [r] } else g') }, ?_, ?_, ?_⟩
  · simp [EC2GroupsState.authorize, noFault, hfind, hr]
  · show List.find? _ _ = _
    unfold EC2GroupsState.find at hfind
    rw [find_map_update_self, hfind]
    rfl
  · intro n hn
    show List.find? _ _ = _
    unfold EC2GroupsState.find
    rw [find_map_update_other _ _ _ _ hn]

lemma authorize_noFault_dup (st : EC2GroupsState) (gname : String)
    (r : SecurityGroupRule) (g : SecurityGroup)
    (hfind : st.find gname = some g) (hr : r ∈ g.rules) :
    st.authorize noFault gname r =
      Except.error "InvalidPermission.Duplicate" := by
  simp [EC2GroupsState.authorize, noFault, hfind, hr]

lemma authorizeRules_cons_ok (fault : AuthorizeFault) (gname : String)
    (st : EC2GroupsState) (r : SecurityGroupRule)
    (rs : List SecurityGroupRule) (st' : EC2GroupsState)
    (h : st.authorize fault gname r = Except.ok st') :
    authorizeRules fault gname st (r :: rs) =
      authorizeRules fault gname st' rs := by
  conv_lhs => unfold authorizeRules
  rw [h]

lemma authorizeRules_cons_dup (fault : AuthorizeFault) (gname : String)
    (st : EC2GroupsState) (r : SecurityGroupRule)
    (rs : List SecurityGroupRule)
    (h : st.authorize fault gname r =
      Except.error "InvalidPermission.Duplicate") :
    authorizeRules fault gname st (r :: rs) =
      authorizeRules fault gname st rs := by
  conv_lhs => unfold authorizeRules
  rw [h]
  simp

lemma authorizeRules_cons_err (fault : AuthorizeFault) (gname : String)
    (st : EC2GroupsState) (r : SecurityGroupRule)
    (rs : List SecurityGroupRule) (c : String)
    (hc : c ≠ "InvalidPermission.Duplicate")
    (h : st.authorize fault gname r = Except.error c) :
    authorizeRules fault gname st (r :: rs) = Except.error c := by
  conv_lhs => unfold authorizeRules
  rw [h]
  simp [hc]

lemma authorizeRules_error_ne_dup (fault : AuthorizeFault) (gname : String) :
    ∀ rules st code, authorizeRules fault gname st rules = Except.error code →
      code ≠ "InvalidPermission.Duplicate" := by
  intro rules
  induction rules with
  | nil =>
    intro st code h
    simp [authorizeRules] at h
  | cons r rs ih =>
    intro st code h
    cases ha : st.authorize fault gname r with
    | ok st' =>
      rw [authorizeRules_cons_ok fault gname st r rs st' ha] at h
      exact ih st' code h
    | error c =>
      by_cases hc : c = "InvalidPermission.Duplicate"
      · subst hc
        rw [authorizeRules_cons_dup fault gname st r rs ha] at h
        exact ih st code h
      · rw [authorizeRules_cons_err fault gname st r rs c hc ha] at h
        cases h
        exact hc

lemma authorizeRules_noFault_ok (gname : String) :
    ∀ rules st (g : SecurityGroup), st.find gname = some g →
      ∃ st' g', authorizeRules noFault gname st rules = Except.ok st' ∧
        st'.find gname = some g' ∧
        (∀ r ∈ g.rules, r ∈ g'.rules) ∧
        (∀ r ∈ rules, r ∈ g'.rules) ∧
        (∀ n, n ≠ gname → st'.find n = st.find n) := by
  intro rules
  induction rules with
  | nil =>
    intro st g hg
    exact ⟨st, g, rfl, hg, fun r hr => hr, by simp, fun n _ => rfl⟩
  | cons r rs ih =>
    intro st g hg
    by_cases hr : r ∈ g.rules
    · obtain ⟨st', g', hok, hfind, hsub, hall, hpres⟩ := ih st g hg
      refine ⟨st', g', ?_, hfind, hsub, ?_, hpres⟩
      · rw [authorizeRules_cons_dup noFault gname st r rs
          (authorize_noFault_dup st gname r g hg hr)]
        exact hok
      · intro x hx
        rcases List.mem_cons.mp hx with rfl | hx'
        · exact hsub x hr
        · exact hall x hx'
    · obtain ⟨stU, hU, hUfind, hUpres⟩ := authorize_noFault_ok st gname r g hg hr
      obtain ⟨st', g', hok, hfind, hsub, hall, hpres⟩ := ih stU _ hUfind
      refine ⟨st', g', ?_, hfind, ?_, ?_, ?_⟩
      · rw [authorizeRules_cons_ok noFault gname st r rs stU hU]
        exact hok
      · intro x hx
        exact hsub x (by simp [hx])
      · intro x hx
        rcases List.mem_cons.mp hx with rfl | hx'
        · exact hsub x (by simp)
        · exact hall x hx'
      · intro n hn
        rw [hpres n hn, hUpres n hn]

lemma authorizeRules_all_dup (gname : String) :
    ∀ rules st (g : SecurityGroup), st.find gname = some g →
      (∀ r ∈ rules, r ∈ g.rules) →
      authorizeRules noFault gname st rules = Except.ok st := by
  intro rules
  induction rules with
  | nil =>
    intro st g _ _
    rfl
  | cons r rs ih =>
    intro st g hg hall
    rw [authorizeRules_cons_dup noFault gname st r rs
      (authorize_noFault_dup st gname r g hg (hall r (by simp)))]
    exact ih st g hg (fun x hx => hall x (by simp [hx]))

lemma get_or_create_eq (fault : AuthorizeFault) (cidr cname : String)
    (st : EC2GroupsState) :
    get_or_create_ec2_security_groups fault cidr cname st =
      (match authorizeRules fault "flintrock"
          (if (st.find "flintrock").isSome then st
           else st.createSecurityGroup "flintrock") (client_rules cidr) with
       | Except.error code => Except.error code
       | Except.ok st2 =>
         match authorizeRules fault ("flintrock-" ++ cname)
             (if (st2.find ("flintrock-" ++ cname)).isSome then st2
              else st2.createSecurityGroup ("flintrock-" ++ cname))
             (cluster_rules ("flintrock-" ++ cname)) with
         | Except.error code => Except.error code
         | Except.ok st4 =>
           Except.ok (st4, "flintrock", "flintrock-" ++ cname)) := rfl

lemma get_or_create_eq_ok1 (fault : AuthorizeFault) (cidr cname : String)
    (st st2 : EC2GroupsState)
    (h1 : authorizeRules fault "flintrock"
      (if (st.find "flintrock").isSome then st
       else st.createSecurityGroup "flintrock") (client_rules cidr) =
      Except.ok st2) :
    get_or_create_ec2_security_groups fault cidr cname st =
      (match authorizeRules fault ("flintrock-" ++ cname)
          (if (st2.find ("flintrock-" ++ cname)).isSome then st2
           else st2.createSecurityGroup ("flintrock-" ++ cname))
          (cluster_rules ("flintrock-" ++ cname)) with
       | Except.error code => Except.error code
       | Except.ok st4 =>
         Except.ok (st4, "flintrock", "flintrock-" ++ cname)) := by
  rw [get_or_create_eq, h1]

lemma get_or_create_eq_ok2 (fault : AuthorizeFault) (cidr cname : String)
    (st st2 st4 : EC2GroupsState)
    (h1 : authorizeRules fault "flintrock"
      (if (st.find "flintrock").isSome then st
       else st.createSecurityGroup "flintrock") (client_rules cidr) =
      Except.ok st2)
    (h2 : authorizeRules fault ("flintrock-" ++ cname)
      (if (st2.find ("flintrock-" ++ cname)).isSome then st2
       else st2.createSecurityGroup ("flintrock-" ++ cname))
      (cluster_rules ("flintrock-" ++ cname)) = Except.ok st4) :
    get_or_create_ec2_security_groups fault cidr cname st =
      Except.ok (st4, "flintrock", "flintrock-" ++ cname) := by
  rw [get_or_create_eq_ok1 fault cidr cname st st2 h1, h2]

lemma get_or_create_eq_err1 (fault : AuthorizeFault) (cidr cname : String)
    (st : EC2GroupsState) (c : String)
    (h1 : authorizeRules fault "flintrock"
      (if (st.find "flintrock").isSome then st
       else st.createSecurityGroup "flintrock") (client_rules cidr) =
      Except.error c) :
    get_or_create_ec2_security_groups fault cidr cname st =
      Except.error c := by
  rw [get_or_create_eq, h1]

lemma get_or_create_eq_err2 (fault : AuthorizeFault) (cidr cname : String)
    (st st2 : EC2GroupsState) (c : String)
    (h1 : authorizeRules fault "flintrock"
      (if (st.find "flintrock").isSome then st
       else st.createSecurityGroup "flintrock") (client_rules cidr) =
      Except.ok st2)
    (h2 : authorizeRules fault ("flintrock-" ++ cname)
      (if (st2.find ("flintrock-" ++ cname)).isSome then st2
       else st2.createSecurityGroup ("flintrock-" ++ cname))
      (cluster_rules ("flintrock-" ++ cname)) = Except.error c) :
    get_or_create_ec2_security_groups fault cidr cname st =
      Except.error c := by
  rw [get_or_create_eq_ok1 fault cidr cname st st2 h1, h2]

lemma cluster_group_name_ne_flintrock (cname : String) :
    ¬("flintrock-" ++ cname = "flintrock") := by
  intro e
  have h1 := congrArg String.length e
  rw [String.length_append] at h1
  have h10 : ("flintrock-" : String).length = 10 := by decide
  have h9 : ("flintrock" : String).length = 9 := by decide
  rw [h10, h9] at h1
  omega

lemma get_or_create_noFault_ok (cidr cname : String) (st : EC2GroupsState) :
    ∃ st4 gf gc,
      get_or_create_ec2_security_groups noFault cidr cname st =
        Except.ok (st4, "flintrock", "flintrock-" ++ cname) ∧
      st4.find "flintrock" = some gf ∧
      (∀ r ∈ client_rules cidr, r ∈ gf.rules) ∧
      st4.find ("flintrock-" ++ cname) = some gc ∧
      (∀ r ∈ cluster_rules ("flintrock-" ++ cname), r ∈ gc.rules) := by
  obtain ⟨g0, hg0⟩ : ∃ g0,
      (if (st.find "flintrock").isSome then st
       else st.createSecurityGroup "flintrock").find "flintrock" = some g0 := by
    by_cases h0 : (st.find "flintrock").isSome
    · rw [if_pos h0]
      exact Option.isSome_iff_exists.mp h0
    · rw [if_neg h0]
      exact ⟨_, find_createSecurityGroup_self st _
        (Option.not_isSome_iff_eq_none.mp h0)⟩
  obtain ⟨st2, gf0, hok1, hgf0, _, hclient, hpres1⟩ :=
    authorizeRules_noFault_ok "flintrock" (client_rules cidr) _ g0 hg0
  obtain ⟨gc0, hgc0⟩ : ∃ gc0,
      (if (st2.find ("flintrock-" ++ cname)).isSome then st2
       else st2.createSecurityGroup ("flintrock-" ++ cname)).find
        ("flintrock-" ++ cname) = some gc0 := by
    by_cases h2 : (st2.find ("flintrock-" ++ cname)).isSome
    · rw [if_pos h2]
      exact Option.isSome_iff_exists.mp h2
    · rw [if_neg h2]
      exact ⟨_, find_createSecurityGroup_self st2 _
        (Option.not_isSome_iff_eq_none.mp h2)⟩
  obtain ⟨st4, gc, hok2, hgc, _, hcluster, hpres2⟩ :=
    authorizeRules_noFault_ok ("flintrock-" ++ cname)
      (cluster_rules ("flintrock-" ++ cname)) _ gc0 hgc0
  have hf3 : (if (st2.find ("flintrock-" ++ cname)).isSome then st2
      else st2.createSecurityGroup ("flintrock-" ++ cname)).find "flintrock" =
      some gf0 := by
    by_cases h2 : (st2.find ("flintrock-" ++ cname)).isSome
    · rw [if_pos h2]
      exact hgf0
    · rw [if_neg h2, find_createSecurityGroup_other st2 _ _
        (fun e => cluster_group_name_ne_flintrock cname e.symm)]
      exact hgf0
  have hf4 : st4.find "flintrock" = some gf0 := by
    rw [hpres2 "flintrock"
      (fun e => cluster_group_name_ne_flintrock cname e.symm)]
    exact hf3
  exact ⟨st4, gf0, gc,
    get_or_create_eq_ok2 noFault cidr cname st st2 st4 hok1 hok2,
    hf4, hclient, hgc, hcluster⟩

lemma get_or_create_noFault_idem (cidr cname : String)
    (st4 : EC2GroupsState) (gf gc : SecurityGroup)
    (hf : st4.find "flintrock" = some gf)
    (hclient : ∀ r ∈ client_rules cidr, r ∈ gf.rules)
    (hc : st4.find ("flintrock-" ++ cname) = some gc)
    (hcluster : ∀ r ∈ cluster_rules ("flintrock-" ++ cname), r ∈ gc.rules) :
    get_or_create_ec2_security_groups noFault cidr cname st4 =
      Except.ok (st4, "flintrock", "flintrock-" ++ cname) := by
  have h1 : (st4.find "flintrock").isSome := by
    rw [hf]
    rfl
  have h2 : (st4.find ("flintrock-" ++ cname)).isSome := by
    rw [hc]
    rfl
  refine get_or_create_eq_ok2 noFault cidr cname st4 st4 st4 ?_ ?_
  · rw [if_pos h1]
    exact authorizeRules_all_dup "flintrock" (client_rules cidr) st4 gf
      hf hclient
  · rw [if_pos h2]
    exact authorizeRules_all_dup ("flintrock-" ++ cname)
      (cluster_rules ("flintrock-" ++ cname)) st4 gc hc hcluster

lemma get_or_create_error_ne_dup (fault : AuthorizeFault)
    (cidr cname : String) (st : EC2GroupsState) (code : String)
    (h : get_or_create_ec2_security_groups fault cidr cname st =
      Except.error code) :
    code ≠ "InvalidPermission.Duplicate" := by
  cases hm : authorizeRules fault "flintrock"
      (if (st.find "flintrock").isSome then st
       else st.createSecurityGroup "flintrock") (client_rules cidr) with
  | error c =>
    have he : Except.error (ε := String) (α := EC2GroupsState × String × String)
        c = Except.error code :=
      (get_or_create_eq_err1 fault cidr cname st c hm).symm.trans h
    cases he
    exact authorizeRules_error_ne_dup fault "flintrock" _ _ _ hm
  | ok st2 =>
    cases hm2 : authorizeRules fault ("flintrock-" ++ cname)
        (if (st2.find ("flintrock-" ++ cname)).isSome then st2
         else st2.createSecurityGroup ("flintrock-" ++ cname))
        (cluster_rules ("flintrock-" ++ cname)) with
    | error c =>
      have he : Except.error (ε := String)
          (α := EC2GroupsState × String × String) c = Except.error code :=
        (get_or_create_eq_err2 fault cidr cname st st2 c hm hm2).symm.trans h
      cases he
      exact authorizeRules_error_ne_dup fault ("flintrock-" ++ cname) _ _ _ hm2
    | ok st4 =>
      have he := (get_or_create_eq_ok2 fault cidr cname st st2 st4
        hm hm2).symm.trans h
      cases he

lemma get_or_create_fault_propagates (cidr cname : String)
    (st : EC2GroupsState) (code : String)
    (hcode : code ≠ "InvalidPermission.Duplicate") :
    get_or_create_ec2_security_groups (fun _ _ => some code) cidr cname st =
      Except.error code := by
  refine get_or_create_eq_err1 (fun _ _ => some code) cidr cname st code ?_
  unfold client_rules
  exact authorizeRules_cons_err (fun _ _ => some code) "flintrock" _ _ _ code
    hcode rfl

/-- C7: security-group convergence is idempotent. For every provider
state: (1) no execution, under any injected provider faults, ever surfaces
the duplicate-rule error `InvalidPermission.Duplicate` to the caller — it
is swallowed where it occurs; (2) without faults the convergence succeeds,
and running it a second time for the same cluster name returns exactly the
same provider state and the same two group names (same groups and rule
sets), again without error; (3) any other provider error code raised
during rule authorization aborts the operation and propagates to the
caller. -/
theorem security_group_convergence_idempotent (cidr cname : String)
    (st : EC2GroupsState) :
    (∀ fault, get_or_create_ec2_security_groups fault cidr cname st ≠
      Except.error "InvalidPermission.Duplicate") ∧
    (∃ res, get_or_create_ec2_security_groups noFault cidr cname st =
        Except.ok res ∧
      get_or_create_ec2_security_groups noFault cidr cname res.1 =
        Except.ok res) ∧
    (∀ code, code ≠ "InvalidPermission.Duplicate" →
      get_or_create_ec2_security_groups (fun _ _ => some code) cidr cname st =
        Except.error code) := by
  refine ⟨?_, ?_, ?_⟩
  · intro fault h
    exact get_or_create_error_ne_dup fault cidr cname st _ h rfl
  · obtain ⟨st4, gf, gc, hok, hf, hclient, hc, hcluster⟩ :=
      get_or_create_noFault_ok cidr cname st
    exact ⟨(st4, "flintrock", "flintrock-" ++ cname), hok,
      get_or_create_noFault_idem cidr cname st4 gf gc hf hclient hc hcluster⟩
  · exact get_or_create_fault_propagates cidr cname st

/-- Witness for C7 on an initially empty region: the convergence succeeds
and is a fixpoint at its own result, and a provider failing authorization
with `UnauthorizedOperation` propagates that error. -/
theorem security_group_convergence_idempotent_witness :
    (∃ res, get_or_create_ec2_security_groups noFault "1.2.3.4/32" "a"
        { groups := [] } = Except.ok res ∧
      get_or_create_ec2_security_groups noFault "1.2.3.4/32" "a" res.1 =
        Except.ok res) ∧
    get_or_create_ec2_security_groups (fun _ _ => some "UnauthorizedOperation")
      "1.2.3.4/32" "a" { groups := [] } =
      Except.error "UnauthorizedOperation" := by
  refine ⟨(security_group_convergence_idempotent "1.2.3.4/32" "a"
      { groups := [] }).2.1, ?_⟩
  exact (security_group_convergence_idempotent "1.2.3.4/32" "a"
    { groups := [] }).2.2 "UnauthorizedOperation" (by decide)

/-! ## Launch rollback (claim C1) -/

lemma launchExceptHandler_split (spotRefresh : List Nat → List SpotRequest)
    (instLookup : List Nat → List EC2Instance)
    (sr : List SpotRequest) (ci : List EC2Instance) (ay ca : Bool) :
    launchExceptHandler spotRefresh instLookup sr ci ay ca =
      (if sr.isEmpty then []
       else if ((spotRefresh (sr.map SpotRequest.id)).filterMap
           SpotRequest.instance_id).isEmpty then
         [Action.cancelSpotRequests (sr.map SpotRequest.id),
          Action.getAllSpotRequests (sr.map SpotRequest.id)]
       else
         [Action.cancelSpotRequests (sr.map SpotRequest.id),
          Action.getAllSpotRequests (sr.map SpotRequest.id),
          Action.getOnlyInstances ((spotRefresh (sr.map SpotRequest.id)).filterMap
            SpotRequest.instance_id)]) ++
      (if (rollbackResolvedInstances spotRefresh instLookup sr ci).isEmpty then
        []
       else
         (if ay then [] else [Action.confirm true]) ++
           (if ay || ca then
             [Action.terminateInstances
               ((rollbackResolvedInstances spotRefresh instLookup sr ci).map
                 EC2Instance.id)]
            else [])) := by
  unfold launchExceptHandler rollbackResolvedInstances
  by_cases h1 : sr.isEmpty
  · simp [h1]
  · by_cases h2 : ((spotRefresh (sr.map SpotRequest.id)).filterMap
        SpotRequest.instance_id).isEmpty
    · simp [h1, h2]
    · simp [h1, h2]

/-- C1: for every `launch` whose rollback-protected acquisition block fails
or is interrupted with error `e`, leaving behind spot requests `sr` and
created instances `ci`: the handler's rollback trace is part of the call's
trace and the original error `e` is re-raised to the caller; when spot
requests were made, all of them (in particular every still-pending bid) are
cancelled in one batched call and the granted set is re-queried; the
instances created by this call, as re-resolved from the provider, are
terminated whenever `assume_yes` is set or the operator confirms; with
`assume_yes` no confirmation prompt appears in the rollback, and without it
a prompt whose default answer is yes precedes termination. -/
theorem launch_rollback_on_failure
    (env : LaunchEnv) (cluster_name region : String) (assume_yes : Bool)
    (pacts bacts : List Action) (e : FlintrockError)
    (sr : List SpotRequest) (ci : List EC2Instance)
    (hex : env.clusterExists = false)
    (hpre : env.preludeResult = Except.ok pacts)
    (hbody : env.body = Except.error (bacts, e, sr, ci)) :
    launch env cluster_name region assume_yes =
      (pacts ++ bacts ++ launchExceptHandler env.spotRefresh env.instLookup
        sr ci assume_yes env.confirmAnswer, Except.error e) ∧
    (sr ≠ [] →
      Action.cancelSpotRequests (sr.map SpotRequest.id) ∈
        (launch env cluster_name region assume_yes).1 ∧
      Action.getAllSpotRequests (sr.map SpotRequest.id) ∈
        (launch env cluster_name region assume_yes).1) ∧
    ((assume_yes || env.confirmAnswer) = true →
      rollbackResolvedInstances env.spotRefresh env.instLookup sr ci ≠ [] →
      Action.terminateInstances
        ((rollbackResolvedInstances env.spotRefresh env.instLookup sr ci).map
          EC2Instance.id) ∈ (launch env cluster_name region assume_yes).1) ∧
    (assume_yes = true → ∀ d, Action.confirm d ∉
      launchExceptHandler env.spotRefresh env.instLookup sr ci assume_yes
        env.confirmAnswer) ∧
    (assume_yes = false →
      rollbackResolvedInstances env.spotRefresh env.instLookup sr ci ≠ [] →
      Action.confirm true ∈
        launchExceptHandler env.spotRefresh env.instLookup sr ci assume_yes
          env.confirmAnswer) := by
  have hlaunch : launch env cluster_name region assume_yes =
      (pacts ++ bacts ++ launchExceptHandler env.spotRefresh env.instLookup
        sr ci assume_yes env.confirmAnswer, Except.error e) := by
    simp [launch, hex, hpre, hbody]
  refine ⟨hlaunch, ?_, ?_, ?_, ?_⟩
  · intro hsr
    have hsrE : sr.isEmpty = false := by
      simpa [List.isEmpty_iff] using hsr
    constructor <;>
    · rw [hlaunch]
      by_cases h2 : ((env.spotRefresh (sr.map SpotRequest.id)).filterMap
          SpotRequest.instance_id).isEmpty <;>
        simp [launchExceptHandler_split, hsrE, h2]
  · intro hconf hres
    have hresE : (rollbackResolvedInstances env.spotRefresh env.instLookup
        sr ci).isEmpty = false := by
      simpa [List.isEmpty_iff] using hres
    rw [hlaunch]
    simp [launchExceptHandler_split, hresE, hconf]
  · intro hay d
    by_cases h1 : sr.isEmpty <;>
      by_cases h3 : (rollbackResolvedInstances env.spotRefresh env.instLookup
          sr ci).isEmpty <;>
      by_cases h2 : ((env.spotRefresh (sr.map SpotRequest.id)).filterMap
          SpotRequest.instance_id).isEmpty <;>
      simp [launchExceptHandler_split, h1, h2, h3, hay]
  · intro hay hres
    have hresE : (rollbackResolvedInstances env.spotRefresh env.instLookup
        sr ci).isEmpty = false := by
      simpa [List.isEmpty_iff] using hres
    simp [launchExceptHandler_split, hresE, hay]

/-- Scaffolding: five spot requests of which the first two were granted
(instance ids 11 and 12) and three are still pending. -/
def sampleSpotRequests : List SpotRequest :=
  [{ id := 1, state := "active", instance_id := some 11 },
   { id := 2, state := "active", instance_id := some 12 },
   { id := 3, state := "open", instance_id := none },
   { id := 4, state := "open", instance_id := none },
   { id := 5, state := "open", instance_id := none }]

/-- Scaffolding: the two instances the granted bids produced. -/
def sampleGrantedInstances : List EC2Instance :=
  [mkInstance 11 InstanceState.pending "master" "ip11" "h11",
   mkInstance 12 InstanceState.pending "slave" "ip12" "h12"]

/-- Scaffolding: a launch environment in which acquisition is interrupted
mid-poll with 2 of 5 spot bids granted and `cluster_instances` not yet
assigned. -/
def sampleLaunchEnv : LaunchEnv :=
  { clusterExists := false
    preludeResult := Except.ok []
    body := Except.error ([], FlintrockError.interrupt, sampleSpotRequests, [])
    spotRefresh := fun _ => sampleSpotRequests
    instLookup := fun _ => sampleGrantedInstances
    confirmAnswer := true }

/-- Witness for C1: the spec's rollback scenario — 2 of 5 spot bids
granted, then an operator interrupt. All five bids are cancelled, the two
granted instances (11 and 12) are re-resolved and terminated after a
default-yes confirmation, and the interrupt is re-raised. -/
theorem launch_rollback_on_failure_witness :
    (launch sampleLaunchEnv "spark" "us-east-1" false).2 =
      Except.error FlintrockError.interrupt ∧
    Action.cancelSpotRequests [1, 2, 3, 4, 5] ∈
      (launch sampleLaunchEnv "spark" "us-east-1" false).1 ∧
    Action.getAllSpotRequests [1, 2, 3, 4, 5] ∈
      (launch sampleLaunchEnv "spark" "us-east-1" false).1 ∧
    Action.terminateInstances [11, 12] ∈
      (launch sampleLaunchEnv "spark" "us-east-1" false).1 ∧
    Action.confirm true ∈
      launchExceptHandler sampleLaunchEnv.spotRefresh
        sampleLaunchEnv.instLookup sampleSpotRequests [] false
        sampleLaunchEnv.confirmAnswer := by
  have h := launch_rollback_on_failure sampleLaunchEnv "spark" "us-east-1"
    false [] [] FlintrockError.interrupt sampleSpotRequests [] rfl rfl rfl
  refine ⟨by rw [h.1], ?_, ?_, ?_, ?_⟩
  · have := (h.2.1 (by decide)).1
    simpa [sampleSpotRequests] using this
  · have := (h.2.1 (by decide)).2
    simpa [sampleSpotRequests] using this
  · have := h.2.2.1 (by decide) (by decide)
    simpa [rollbackResolvedInstances, sampleLaunchEnv, sampleSpotRequests,
      sampleGrantedInstances, mkInstance] using this
  · exact h.2.2.2.2 rfl (by decide)

end Flintrock
